import Mathlib

set_option maxRecDepth 4000

/- Shallow embedding of the ESP32 BLE GATT server abstraction layer
   (src/ble.c, src/ble-gatts.c, src/include/ble.h, src/include/ble-return-code.h).
   Machine integers are modelled as Nat; C strings as byte lists (List Nat,
   without the terminating NUL); NULL pointers as Option.none.  Calls into the
   vendor stack (esp_ble_gatts_*, controller bring-up, GAP) are recorded as an
   emitted operation trace and assumed to return ESP_OK, since their code is
   external to this repository. -/

/-- The esp_gatt_status_t codes used by this module (esp_gatt_defs.h). -/
inductive esp_gatt_status_t where
  | ESP_GATT_OK
  | ESP_GATT_ERROR
  | ESP_GATT_INVALID_HANDLE
  | ESP_GATT_READ_NOT_PERMIT
  | ESP_GATT_WRITE_NOT_PERMIT
  | ESP_GATT_INVALID_ATTR_LEN
  | ESP_GATT_OUT_OF_RANGE
  | ESP_GATT_BUSY
  deriving DecidableEq

/-- The esp_err_t codes returned by ble_gatts_init (src/ble-gatts.c:69-112). -/
inductive esp_err_t where
  | ESP_OK
  | ESP_ERR_INVALID_ARG
  | ESP_ERR_NO_MEM
  deriving DecidableEq

/-- ble_return_code_t (src/include/ble-return-code.h:192-200). -/
inductive ble_return_code_t where
  | BLE_SUCCESS
  | BLE_GENERIC_ERROR
  | BLE_ALREADY_INITIALIZED
  | BLE_NOT_INITIALIZED
  | BLE_INVALID_CONFIG
  | BLE_INVALID_CHARS
  deriving DecidableEq

/-- ble_char_error_t value BLE_CHAR_OK (src/include/ble-return-code.h:208-215).
The write callback result is modelled as a Nat, since a C callback returns an
int which need not be one of the five named enumerators. -/
def BLE_CHAR_OK : Nat := 0

/-- ble_char_error_t value BLE_CHAR_ERR_SIZE. -/
def BLE_CHAR_ERR_SIZE : Nat := 1

/-- ble_char_error_t value BLE_CHAR_ERR_VALUE. -/
def BLE_CHAR_ERR_VALUE : Nat := 2

/-- ble_char_error_t value BLE_CHAR_ERR_READONLY. -/
def BLE_CHAR_ERR_READONLY : Nat := 3

/-- ble_char_error_t value BLE_CHAR_ERR_BUSY. -/
def BLE_CHAR_ERR_BUSY : Nat := 4

/-- ble_characteristic_t (src/include/ble.h:67-74).  The read handler is a
function from buffer capacity to (return value, bytes written into the buffer);
the write handler maps the received bytes to its integer result.  The
`description` field is read by src/ble-gatts.c:239-263 and 428-457; its struct
declaration is in a header revision not present under src/include, so the field
is modelled from the spec: optional human-readable string whose presence
triggers creation of a descriptor attribute. -/
structure ble_characteristic_t where
  uuid : Nat
  name : String
  size : Nat
  read : Option (Nat → Int × List Nat)
  write : Option (List Nat → Nat)
  description : Option (List Nat)

/-- A zero/NULL-filled characteristic, used only to model what a C pointer
dereference would see where the source would fault on NULL (never reached under
the hypotheses of the theorems below). -/
def dummyChar : ble_characteristic_t :=
  { uuid := 0, name := "", size := 0, read := none, write := none, description := none }

/-- ble_char_handle_t (src/ble-gatts.c:37-43).  The `def` pointer into the
caller's array is modelled as an optional index `def_idx`. -/
structure ble_char_handle_t where
  char_handle : Nat
  cccd_handle : Nat
  descr_handle : Nat
  def_idx : Option Nat
  deriving DecidableEq

/-- The all-zero table entry produced by memset (src/ble-gatts.c:88). -/
def zeroHandleEntry : ble_char_handle_t :=
  { char_handle := 0, cccd_handle := 0, descr_handle := 0, def_idx := none }

/-- The static module state of src/ble-gatts.c:46-57.  The fixed array
s_char_handles[MAX_CHARACTERISTICS] is modelled as a total function; all
accesses the code performs are at indices below s_char_count (proved below). -/
structure GattsState where
  s_characteristics : List ble_characteristic_t
  s_char_count : Nat
  s_service_uuid : Nat
  s_service_handle : Nat
  s_gatts_if : Nat
  s_conn_id : Nat
  s_is_connected : Bool
  s_char_handles : Nat → ble_char_handle_t
  s_registered_chars : Nat
  s_pending_descr_char : Nat

/-- MAX_CHARACTERISTICS (src/ble-gatts.c:27). -/
def MAX_CHARACTERISTICS : Nat := 16

/-- sizeof(rsp.attr_value.value): the response buffer capacity,
ESP_GATT_MAX_ATTR_LEN = 600 in esp_gatt_defs.h. -/
def RSP_CAPACITY : Nat := 600

/-- Operations issued to the vendor stack (and external collaborators),
recorded as a trace. -/
inductive StackOp where
  | registerCallback
  | appRegister (appId : Nat)
  | setLocalMtu (mtu : Nat)
  | createService (uuid : Nat) (numHandles : Nat)
  | startService (handle : Nat)
  | addChar (svc : Nat) (uuid : Nat) (perms : Nat) (props : Nat)
  | addCharDescr (svc : Nat) (uuid : Nat) (perm : Nat) (value : List Nat)
  | sendResponse (connId : Nat) (transId : Nat) (status : esp_gatt_status_t)
      (rsp : Option (Nat × Nat × Nat × List Nat))
  | updateConnParams (bda : List Nat) (minI : Nat) (maxI : Nat) (lat : Nat) (tmo : Nat)
  | startAdv
  | nvmInit
  | btMemRelease
  | btControllerInit
  | btControllerEnable
  | bluedroidInit
  | bluedroidEnable
  | gapInit (deviceName : String)
  deriving DecidableEq

/-- A user-callback invocation performed by the dispatcher, recorded so that
"no callback is invoked" is a statement about the model, not its absence. -/
inductive CbCall where
  | readCb (defIdx : Nat) (cap : Nat)
  | writeCb (defIdx : Nat) (data : List Nat)
  deriving DecidableEq

/-- The events delivered by the stack to gatts_event_handler
(src/ble-gatts.c:137-413); one constructor per case the handler treats,
carrying the param fields the handler reads. -/
inductive GattsEvent where
  | regEvt (status : esp_gatt_status_t)
  | createEvt (status : esp_gatt_status_t) (service_handle : Nat)
  | addCharEvt (status : esp_gatt_status_t) (attr_handle : Nat)
  | addCharDescrEvt (status : esp_gatt_status_t) (attr_handle : Nat)
  | connectEvt (conn_id : Nat) (bda : List Nat)
  | disconnectEvt (reason : Nat)
  | readEvt (conn_id : Nat) (trans_id : Nat) (handle : Nat) (offset : Nat)
  | writeEvt (conn_id : Nat) (trans_id : Nat) (handle : Nat) (value : List Nat) (need_rsp : Bool)
  | mtuEvt (mtu : Nat)
  | startEvt (status : esp_gatt_status_t)

/-- The condition `description != NULL && description[0] != '\0'`
(src/ble-gatts.c:239). -/
def hasDescription (ch : ble_characteristic_t) : Bool :=
  match ch.description with
  | some d => !d.isEmpty
  | none => false

/-- The description bytes, as handed to the stack. -/
def descBytes (ch : ble_characteristic_t) : List Nat :=
  ch.description.getD []

/-- Derived property bits (src/ble-gatts.c:191-195):
ESP_GATT_CHAR_PROP_BIT_READ = 2, ESP_GATT_CHAR_PROP_BIT_WRITE = 8. -/
def charProps (ch : ble_characteristic_t) : Nat :=
  (if ch.read.isSome then 2 else 0) + (if ch.write.isSome then 8 else 0)

/-- Derived permissions (src/ble-gatts.c:198-202):
ESP_GATT_PERM_READ = 1, ESP_GATT_PERM_WRITE = 16. -/
def charPerms (ch : ble_characteristic_t) : Nat :=
  (if ch.read.isSome then 1 else 0) + (if ch.write.isSome then 16 else 0)

/-- The esp_ble_gatts_add_char call for one characteristic
(src/ble-gatts.c:204-209, 287-292, 341-346). -/
def issueAddChar (svc : Nat) (ch : ble_characteristic_t) : StackOp :=
  StackOp.addChar svc ch.uuid (charPerms ch) (charProps ch)

/-- find_char_by_handle (src/ble-gatts.c:576-586): first index i below
s_char_count whose entry's char_handle equals the searched handle; the C
function returns a pointer to that entry, modelled here as the index. -/
def find_char_by_handle (s : GattsState) (handle : Nat) : Option Nat :=
  (List.range s.s_char_count).find? (fun i => (s.s_char_handles i).char_handle == handle)

/-- find_char_by_descr_handle (src/ble-gatts.c:591-601): like
find_char_by_handle but over descr_handle, additionally requiring the stored
descr_handle to be nonzero. -/
def find_char_by_descr_handle (s : GattsState) (handle : Nat) : Option Nat :=
  (List.range s.s_char_count).find?
    (fun i => decide ((s.s_char_handles i).descr_handle ≠ 0) &&
      ((s.s_char_handles i).descr_handle == handle))

/-- Dereference of the entry's `def` pointer (ch->def).  On a NULL def the C
code would fault; the model returns dummyChar there (no theorem below depends
on that branch). -/
def derefDef (s : GattsState) (e : ble_char_handle_t) : ble_characteristic_t :=
  match e.def_idx with
  | some di => s.s_characteristics.getD di dummyChar
  | none => dummyChar

/-- handle_char_read (src/ble-gatts.c:418-506).  Returns the issued stack
operations (send_response calls) and the user callbacks invoked; the module
state is not modified by this function.  A sendResponse payload is
(handle, len, offset, bytes actually carried). -/
def handle_char_read (s : GattsState) (connId transId handle offset : Nat) :
    List StackOp × List CbCall :=
  match find_char_by_descr_handle s handle with
  | some i =>
    let chDef := derefDef s (s.s_char_handles i)
    match chDef.description with
    | some d =>
      let total_len := d.length
      if offset ≥ total_len then
        ([StackOp.sendResponse connId transId .ESP_GATT_OK (some (handle, 0, 0, []))], [])
      else
        let to_send := min (total_len - offset) RSP_CAPACITY
        ([StackOp.sendResponse connId transId .ESP_GATT_OK
            (some (handle, to_send, offset, (d.drop offset).take to_send))], [])
    | none =>
      ([StackOp.sendResponse connId transId .ESP_GATT_OK (some (handle, 0, 0, []))], [])
  | none =>
    match find_char_by_handle s handle with
    | none =>
      ([StackOp.sendResponse connId transId .ESP_GATT_INVALID_HANDLE none], [])
    | some i =>
      let e := s.s_char_handles i
      let chDef := derefDef s e
      match chDef.read with
      | none =>
        ([StackOp.sendResponse connId transId .ESP_GATT_READ_NOT_PERMIT none], [])
      | some cb =>
        let r := cb RSP_CAPACITY
        let call := CbCall.readCb (e.def_idx.getD 0) RSP_CAPACITY
        if r.1 < 0 then
          ([StackOp.sendResponse connId transId .ESP_GATT_ERROR none], [call])
        else
          let len := r.1.toNat % 65536
          let buffer := r.2.take RSP_CAPACITY ++
            List.replicate (RSP_CAPACITY - (r.2.take RSP_CAPACITY).length) 0
          ([StackOp.sendResponse connId transId .ESP_GATT_OK
              (some (handle, len, 0, buffer.take len))], [call])

/-- handle_char_write (src/ble-gatts.c:511-571).  The responses on the
unknown-handle and write-not-permitted paths are unconditional in the source;
only the post-callback response is guarded by need_rsp. -/
def handle_char_write (s : GattsState) (connId transId handle : Nat)
    (value : List Nat) (need_rsp : Bool) : List StackOp × List CbCall :=
  match find_char_by_handle s handle with
  | none =>
    ([StackOp.sendResponse connId transId .ESP_GATT_INVALID_HANDLE none], [])
  | some i =>
    let e := s.s_char_handles i
    let chDef := derefDef s e
    match chDef.write with
    | none =>
      ([StackOp.sendResponse connId transId .ESP_GATT_WRITE_NOT_PERMIT none], [])
    | some cb =>
      let result := cb value
      let status := match result with
        | 0 => esp_gatt_status_t.ESP_GATT_OK
        | 1 => esp_gatt_status_t.ESP_GATT_INVALID_ATTR_LEN
        | 2 => esp_gatt_status_t.ESP_GATT_OUT_OF_RANGE
        | 3 => esp_gatt_status_t.ESP_GATT_WRITE_NOT_PERMIT
        | 4 => esp_gatt_status_t.ESP_GATT_BUSY
        | _ => esp_gatt_status_t.ESP_GATT_ERROR
      ((if need_rsp then [StackOp.sendResponse connId transId status none] else []),
       [CbCall.writeCb (e.def_idx.getD 0) value])

/-- Output of one gatts_event_handler invocation: the new module state, the
stack operations issued, and the user callbacks invoked. -/
structure HandlerOut where
  st : GattsState
  ops : List StackOp
  calls : List CbCall

/-- CALC_NUM_HANDLES (src/ble-gatts.c:34): 1 service slot + 3 per
characteristic. -/
def CALC_NUM_HANDLES (char_count : Nat) : Nat := 1 + char_count * 3

/-- gatts_event_handler (src/ble-gatts.c:137-413), one event step. -/
def gatts_event_handler (s : GattsState) (gatts_if : Nat) (ev : GattsEvent) : HandlerOut :=
  match ev with
  | .regEvt status =>
    if status = .ESP_GATT_OK then
      { st := { s with s_gatts_if := gatts_if },
        ops := [StackOp.createService s.s_service_uuid (CALC_NUM_HANDLES s.s_char_count)],
        calls := [] }
    else { st := s, ops := [], calls := [] }
  | .createEvt status h =>
    if status = .ESP_GATT_OK then
      { st := { s with s_service_handle := h },
        ops := StackOp.startService h ::
          (if s.s_char_count > 0 then [issueAddChar h (s.s_characteristics.getD 0 dummyChar)]
           else []),
        calls := [] }
    else { st := s, ops := [], calls := [] }
  | .addCharEvt status attr =>
    if status = .ESP_GATT_OK then
      if s.s_registered_chars < s.s_char_count then
        let r := s.s_registered_chars
        let table := fun j => if j = r then
            { s.s_char_handles j with char_handle := attr, def_idx := some r }
          else s.s_char_handles j
        let cur := s.s_characteristics.getD r dummyChar
        if hasDescription cur then
          { st := { s with s_char_handles := table, s_pending_descr_char := r },
            ops := [StackOp.addCharDescr s.s_service_handle 0x2901 1 (descBytes cur)],
            calls := [] }
        else
          if r + 1 < s.s_char_count then
            { st := { s with s_char_handles := table, s_registered_chars := r + 1 },
              ops := [issueAddChar s.s_service_handle
                        (s.s_characteristics.getD (r + 1) dummyChar)],
              calls := [] }
          else
            { st := { s with s_char_handles := table, s_registered_chars := r + 1 },
              ops := [], calls := [] }
      else { st := s, ops := [], calls := [] }
    else { st := s, ops := [], calls := [] }
  | .addCharDescrEvt status attr =>
    if status = .ESP_GATT_OK then
      if s.s_pending_descr_char < s.s_char_count then
        let p := s.s_pending_descr_char
        let table := fun j => if j = p then
            { s.s_char_handles j with descr_handle := attr }
          else s.s_char_handles j
        if s.s_registered_chars + 1 < s.s_char_count then
          { st := { s with
                    s_char_handles := table,
                    s_registered_chars := s.s_registered_chars + 1 },
            ops := [issueAddChar s.s_service_handle
                      (s.s_characteristics.getD (s.s_registered_chars + 1) dummyChar)],
            calls := [] }
        else
          { st := { s with
                    s_char_handles := table,
                    s_registered_chars := s.s_registered_chars + 1 },
            ops := [], calls := [] }
      else { st := s, ops := [], calls := [] }
    else { st := s, ops := [], calls := [] }
  | .connectEvt cid bda =>
    { st := { s with s_conn_id := cid, s_is_connected := true },
      ops := [StackOp.updateConnParams bda 0x20 0x40 0 400], calls := [] }
  | .disconnectEvt _ =>
    { st := { s with s_is_connected := false }, ops := [StackOp.startAdv], calls := [] }
  | .readEvt c t h off =>
    { st := s, ops := (handle_char_read s c t h off).1,
      calls := (handle_char_read s c t h off).2 }
  | .writeEvt c t h v nr =>
    { st := s, ops := (handle_char_write s c t h v nr).1,
      calls := (handle_char_write s c t h v nr).2 }
  | .mtuEvt _ => { st := s, ops := [], calls := [] }
  | .startEvt _ => { st := s, ops := [], calls := [] }

/-- Result of ble_gatts_init. -/
structure GattsInitOut where
  ret : esp_err_t
  st : GattsState
  ops : List StackOp

/-- ble_gatts_init (src/ble-gatts.c:69-112).  The chars pointer is modelled as
an Option; count is a separate parameter as in C.  The vendor registration
calls are assumed to return ESP_OK (external code), so both are recorded and
the happy path continues. -/
def ble_gatts_init (s : GattsState) (chars : Option (List ble_characteristic_t))
    (count : Nat) (service_uuid : Nat) : GattsInitOut :=
  match chars with
  | none => { ret := .ESP_ERR_INVALID_ARG, st := s, ops := [] }
  | some l =>
    if count = 0 then { ret := .ESP_ERR_INVALID_ARG, st := s, ops := [] }
    else if count > MAX_CHARACTERISTICS then
      { ret := .ESP_ERR_NO_MEM, st := s, ops := [] }
    else
      { ret := .ESP_OK,
        st := { s with
                s_characteristics := l, s_char_count := count,
                s_service_uuid := service_uuid, s_registered_chars := 0,
                s_char_handles := fun _ => zeroHandleEntry },
        ops := [StackOp.registerCallback, StackOp.appRegister 0,
                StackOp.setLocalMtu 500] }

/-- The static state of src/ble.c:32-33. -/
structure ble_server_config_t where
  device_name : Option String
  service_uuid : Nat
  characteristics : Option (List ble_characteristic_t)
  characteristic_count : Nat

/-- Static server-facade state (src/ble.c:32-33). -/
structure BleState where
  s_initialized : Bool
  s_config : Option ble_server_config_t

/-- Result of ble_server_init / ble_server_stop. -/
structure ServerOut where
  ret : ble_return_code_t
  ble : BleState
  gatts : GattsState
  ops : List StackOp

/-- ble_server_init (src/ble.c:38-112).  Controller/host bring-up calls are
external and assumed successful; they are recorded on the trace. -/
def ble_server_init (b : BleState) (g : GattsState)
    (config : Option ble_server_config_t) : ServerOut :=
  if b.s_initialized then
    { ret := .BLE_ALREADY_INITIALIZED, ble := b, gatts := g, ops := [] }
  else
    match config with
    | none => { ret := .BLE_INVALID_CONFIG, ble := b, gatts := g, ops := [] }
    | some c =>
      match c.device_name with
      | none => { ret := .BLE_INVALID_CONFIG, ble := b, gatts := g, ops := [] }
      | some nm =>
        if c.characteristics.isNone || c.characteristic_count == 0 then
          { ret := .BLE_INVALID_CHARS, ble := b, gatts := g, ops := [] }
        else
          let b1 : BleState := { b with s_config := some c }
          let bringup : List StackOp :=
            [StackOp.nvmInit, StackOp.btMemRelease, StackOp.btControllerInit,
             StackOp.btControllerEnable, StackOp.bluedroidInit, StackOp.bluedroidEnable]
          let gi := ble_gatts_init g c.characteristics c.characteristic_count c.service_uuid
          if gi.ret = .ESP_OK then
            { ret := .BLE_SUCCESS, ble := { b1 with s_initialized := true },
              gatts := gi.st, ops := bringup ++ gi.ops ++ [StackOp.gapInit nm] }
          else
            { ret := .BLE_GENERIC_ERROR, ble := b1, gatts := gi.st,
              ops := bringup ++ gi.ops }

/-- The process-start value of the static module state (src/ble-gatts.c:46-57):
everything zero/NULL, ESP_GATT_IF_NONE = 0xff. -/
def initialGatts : GattsState :=
  { s_characteristics := [], s_char_count := 0, s_service_uuid := 0,
    s_service_handle := 0, s_gatts_if := 0xff, s_conn_id := 0,
    s_is_connected := false, s_char_handles := fun _ => zeroHandleEntry,
    s_registered_chars := 0, s_pending_descr_char := 0 }

/-- The process-start value of the facade state (src/ble.c:32-33). -/
def initialBle : BleState := { s_initialized := false, s_config := none }

/-- Final state after processing a list of events sequentially. -/
def runState (s : GattsState) (gif : Nat) : List GattsEvent → GattsState
  | [] => s
  | e :: es => runState (gatts_event_handler s gif e).st gif es

/-- Concatenated stack-operation trace of a list of events. -/
def runOps (s : GattsState) (gif : Nat) : List GattsEvent → List StackOp
  | [] => []
  | e :: es => (gatts_event_handler s gif e).ops ++
      runOps (gatts_event_handler s gif e).st gif es

/-- All states passed through while processing a list of events (initial state
included, final state included). -/
def runStates (s : GattsState) (gif : Nat) : List GattsEvent → List GattsState
  | [] => [s]
  | e :: es => s :: runStates (gatts_event_handler s gif e).st gif es

/-- The in-order completion events the stack delivers for the characteristics
from index i on: one add-char completion per characteristic, followed by an
add-descriptor completion when the characteristic carries a description.
vh i / dh i are the value / descriptor handles the stack assigns to index i. -/
def charEvents (vh dh : Nat → Nat) : Nat → List ble_characteristic_t → List GattsEvent
  | _, [] => []
  | i, c :: cs =>
    GattsEvent.addCharEvt .ESP_GATT_OK (vh i) ::
      ((if hasDescription c then [GattsEvent.addCharDescrEvt .ESP_GATT_OK (dh i)] else []) ++
        charEvents vh dh (i + 1) cs)

/-- The full canonical registration trace: app-registration completion,
service-creation completion, then the per-characteristic completions. -/
def regTrace (chars : List ble_characteristic_t) (svcH : Nat) (vh dh : Nat → Nat) :
    List GattsEvent :=
  GattsEvent.regEvt .ESP_GATT_OK :: GattsEvent.createEvt .ESP_GATT_OK svcH ::
    charEvents vh dh 0 chars

/-- Number of operations in a trace satisfying a predicate. -/
def countOps (p : StackOp → Bool) (ops : List StackOp) : Nat := (ops.filter p).length

/-- Recognizer for esp_ble_gatts_add_char issuances. -/
def isAddCharOp : StackOp → Bool
  | .addChar _ _ _ _ => true
  | _ => false

/-- Recognizer for esp_ble_gatts_add_char_descr issuances. -/
def isAddDescrOp : StackOp → Bool
  | .addCharDescr _ _ _ _ => true
  | _ => false

/- ===== Concrete fixtures used by witnesses and counterexamples ===== -/

/-- A write-only characteristic whose handler validates the length. -/
def wCb : List Nat → Nat :=
  fun d => if d.length == 1 then BLE_CHAR_OK else BLE_CHAR_ERR_SIZE

/-- A read-only characteristic handler producing one byte. -/
def rCb : Nat → Int × List Nat := fun _ => (1, [7])

/-- Write-only demo characteristic. -/
def wChar : ble_characteristic_t :=
  { uuid := 0xFF01, name := "w", size := 1, read := none, write := some wCb,
    description := none }

/-- Readable demo characteristic with a two-byte description. -/
def rChar : ble_characteristic_t :=
  { uuid := 0xFF02, name := "r", size := 1, read := some rCb, write := none,
    description := some [72, 105] }

/-- A fully registered two-characteristic server state: value handles 42 and
44, descriptor handle 46 on the second characteristic. -/
def demoState : GattsState :=
  { s_characteristics := [wChar, rChar], s_char_count := 2, s_service_uuid := 0xFF,
    s_service_handle := 40, s_gatts_if := 3, s_conn_id := 0, s_is_connected := true,
    s_char_handles := fun j =>
      if j = 0 then { char_handle := 42, cccd_handle := 0, descr_handle := 0, def_idx := some 0 }
      else if j = 1 then { char_handle := 44, cccd_handle := 0, descr_handle := 46, def_idx := some 1 }
      else zeroHandleEntry,
    s_registered_chars := 2, s_pending_descr_char := 1 }

/- ===== C7 ===== -/

/-- C7: calling ble_server_init while already initialized returns
BLE_ALREADY_INITIALIZED, leaves both the facade state and the GATTS state
untouched, and issues no stack operation whatsoever (in particular no duplicate
service creation). -/
theorem c7_second_init_no_effect (b : BleState) (g : GattsState)
    (cfg : Option ble_server_config_t) (h : b.s_initialized = true) :
    ble_server_init b g cfg =
      { ret := .BLE_ALREADY_INITIALIZED, ble := b, gatts := g, ops := [] } := by
  simp [ble_server_init, h]

/-- Witness for C7 at a concrete already-initialized state. -/
theorem c7_second_init_no_effect_witness :
    (BleState.mk true none).s_initialized = true ∧
    ble_server_init (BleState.mk true none) initialGatts none =
      { ret := .BLE_ALREADY_INITIALIZED, ble := BleState.mk true none,
        gatts := initialGatts, ops := [] } :=
  ⟨rfl, c7_second_init_no_effect (BleState.mk true none) initialGatts none rfl⟩

/- ===== C3 ===== -/

/-- C3: a write event whose handle resolves to a characteristic with a write
callback invokes that callback on the received bytes, maps its result to the
GATT status exactly as Ok→OK, ErrSize→invalid-attribute-length,
ErrValue→out-of-range, ErrReadOnly→write-not-permitted, ErrBusy→busy and any
other value→generic error, and leaves the whole module state unchanged (the
callback result never reaches the server lifecycle). -/
theorem c3_write_status_mapping (s : GattsState) (gif connId transId handle : Nat)
    (value : List Nat) (need_rsp : Bool) (i di : Nat) (cb : List Nat → Nat)
    (hfind : find_char_by_handle s handle = some i)
    (hdef : (s.s_char_handles i).def_idx = some di)
    (hcb : (s.s_characteristics.getD di dummyChar).write = some cb) :
    gatts_event_handler s gif (.writeEvt connId transId handle value need_rsp) =
      { st := s,
        ops := if need_rsp then
            [StackOp.sendResponse connId transId
              (match cb value with
               | 0 => .ESP_GATT_OK
               | 1 => .ESP_GATT_INVALID_ATTR_LEN
               | 2 => .ESP_GATT_OUT_OF_RANGE
               | 3 => .ESP_GATT_WRITE_NOT_PERMIT
               | 4 => .ESP_GATT_BUSY
               | _ => .ESP_GATT_ERROR) none]
          else [],
        calls := [CbCall.writeCb di value] } := by
  simp only [List.getD, List.get?_eq_getElem?] at hcb
  simp [gatts_event_handler, handle_char_write, hfind, derefDef, hdef, hcb]

/-- Witness for C3: write of one byte to the demo write-only characteristic,
whose handler accepts it, yields an OK response and leaves the state alone. -/
theorem c3_write_status_mapping_witness :
    find_char_by_handle demoState 42 = some 0 ∧
    gatts_event_handler demoState 3 (.writeEvt 1 2 42 [5] true) =
      { st := demoState,
        ops := [StackOp.sendResponse 1 2 .ESP_GATT_OK none],
        calls := [CbCall.writeCb 0 [5]] } := by
  refine ⟨by decide, ?_⟩
  have h := c3_write_status_mapping demoState 3 1 2 42 [5] true 0 0 wCb
    (by decide) (by decide) rfl
  simpa [wCb, BLE_CHAR_OK] using h

/- ===== C6 ===== -/

/-- C6: a read event on a write-only characteristic's value handle is answered
with read-not-permitted and no user callback runs; a read event whose handle
matches neither a descriptor nor a characteristic is answered with
invalid-handle, again with no callback. -/
theorem c6_read_not_permitted_and_unknown (s : GattsState)
    (gif connId transId handle offset : Nat) :
    (∀ i di, find_char_by_descr_handle s handle = none →
      find_char_by_handle s handle = some i →
      (s.s_char_handles i).def_idx = some di →
      (s.s_characteristics.getD di dummyChar).read = none →
      gatts_event_handler s gif (.readEvt connId transId handle offset) =
        { st := s,
          ops := [StackOp.sendResponse connId transId .ESP_GATT_READ_NOT_PERMIT none],
          calls := [] }) ∧
    (find_char_by_descr_handle s handle = none →
      find_char_by_handle s handle = none →
      gatts_event_handler s gif (.readEvt connId transId handle offset) =
        { st := s,
          ops := [StackOp.sendResponse connId transId .ESP_GATT_INVALID_HANDLE none],
          calls := [] }) := by
  constructor
  · intro i di hfd hfc hdef hread
    simp only [List.getD, List.get?_eq_getElem?] at hread
    simp [gatts_event_handler, handle_char_read, hfd, hfc, derefDef, hdef, hread]
  · intro hfd hfc
    simp [gatts_event_handler, handle_char_read, hfd, hfc]

/-- Witness for C6: reading the write-only demo characteristic (handle 42)
yields read-not-permitted; reading the unknown handle 99 yields
invalid-handle; neither runs a callback. -/
theorem c6_read_not_permitted_and_unknown_witness :
    find_char_by_handle demoState 42 = some 0 ∧
    gatts_event_handler demoState 3 (.readEvt 1 2 42 0) =
      { st := demoState,
        ops := [StackOp.sendResponse 1 2 .ESP_GATT_READ_NOT_PERMIT none],
        calls := [] } ∧
    gatts_event_handler demoState 3 (.readEvt 1 2 99 0) =
      { st := demoState,
        ops := [StackOp.sendResponse 1 2 .ESP_GATT_INVALID_HANDLE none],
        calls := [] } := by
  refine ⟨by decide, ?_, ?_⟩
  · exact (c6_read_not_permitted_and_unknown demoState 3 1 2 42 0).1 0 0
      (by decide) (by decide) (by decide) rfl
  · exact (c6_read_not_permitted_and_unknown demoState 3 1 2 99 0).2
      (by decide) (by decide)

/- ===== C5 ===== -/

/-- C5: a read event on a registered descriptor handle whose characteristic
carries description d answers with success: a zero-length payload when the
event's offset is at or past the end of d, and otherwise exactly
min (d.length - offset) RSP_CAPACITY bytes of d starting at offset. -/
theorem c5_descriptor_read_slicing (s : GattsState)
    (gif connId transId handle offset i di : Nat) (d : List Nat)
    (hfd : find_char_by_descr_handle s handle = some i)
    (hdef : (s.s_char_handles i).def_idx = some di)
    (hdesc : (s.s_characteristics.getD di dummyChar).description = some d) :
    gatts_event_handler s gif (.readEvt connId transId handle offset) =
      { st := s,
        ops := [StackOp.sendResponse connId transId .ESP_GATT_OK
          (some (if d.length ≤ offset then (handle, 0, 0, ([] : List Nat))
                 else (handle, min (d.length - offset) RSP_CAPACITY, offset,
                       (d.drop offset).take (min (d.length - offset) RSP_CAPACITY))))],
        calls := [] } := by
  simp only [List.getD, List.get?_eq_getElem?] at hdesc
  by_cases h : d.length ≤ offset
  · simp [gatts_event_handler, handle_char_read, hfd, derefDef, hdef, hdesc, h, ge_iff_le]
  · simp [gatts_event_handler, handle_char_read, hfd, derefDef, hdef, hdesc, h, ge_iff_le]

/-- Witness for C5: reading the demo descriptor (handle 46, description of
length 2) at offset 1 returns the single remaining byte; the zero-length case
is exercised at offset 2. -/
theorem c5_descriptor_read_slicing_witness :
    find_char_by_descr_handle demoState 46 = some 1 ∧
    gatts_event_handler demoState 3 (.readEvt 1 2 46 1) =
      { st := demoState,
        ops := [StackOp.sendResponse 1 2 .ESP_GATT_OK (some (46, 1, 1, [105]))],
        calls := [] } ∧
    gatts_event_handler demoState 3 (.readEvt 1 2 46 2) =
      { st := demoState,
        ops := [StackOp.sendResponse 1 2 .ESP_GATT_OK (some (46, 0, 0, ([] : List Nat)))],
        calls := [] } := by
  refine ⟨by decide, ?_, ?_⟩
  · have h := c5_descriptor_read_slicing demoState 3 1 2 46 1 1 1 [72, 105]
      (by decide) (by decide) rfl
    simpa using h
  · have h := c5_descriptor_read_slicing demoState 3 1 2 46 2 1 1 [72, 105]
      (by decide) (by decide) rfl
    simpa using h

/- ===== C4 ===== -/

/-- C4, counterexample: a write event that did NOT request a response
(need_rsp = false) on an unknown handle is nevertheless acknowledged — the
unknown-handle send_response in src/ble-gatts.c:518 is unconditional, so the
claim "a response is sent only if the inbound event requested one" fails on
this path. -/
theorem c4_counterexample :
    (handle_char_write initialGatts 1 2 5 [] false).1 =
      [StackOp.sendResponse 1 2 .ESP_GATT_INVALID_HANDLE none] ∧
    (handle_char_write initialGatts 1 2 5 [] false).1 ≠ [] := by
  decide

/-- C4 as amended: only the matched-writable path honours need_rsp; the
unknown-handle and write-not-permitted error paths acknowledge every write
event unconditionally, including write-without-response events. -/
theorem c4_need_rsp_amended (s : GattsState) (connId transId handle : Nat)
    (value : List Nat) :
    (∀ i di cb, find_char_by_handle s handle = some i →
      (s.s_char_handles i).def_idx = some di →
      (s.s_characteristics.getD di dummyChar).write = some cb →
      ∀ need_rsp,
        ((handle_char_write s connId transId handle value need_rsp).1 ≠ [] ↔
          need_rsp = true)) ∧
    (find_char_by_handle s handle = none →
      ∀ need_rsp, (handle_char_write s connId transId handle value need_rsp).1 =
        [StackOp.sendResponse connId transId .ESP_GATT_INVALID_HANDLE none]) ∧
    (∀ i di, find_char_by_handle s handle = some i →
      (s.s_char_handles i).def_idx = some di →
      (s.s_characteristics.getD di dummyChar).write = none →
      ∀ need_rsp, (handle_char_write s connId transId handle value need_rsp).1 =
        [StackOp.sendResponse connId transId .ESP_GATT_WRITE_NOT_PERMIT none]) := by
  refine ⟨?_, ?_, ?_⟩
  · intro i di cb hfind hdef hcb need_rsp
    simp only [List.getD, List.get?_eq_getElem?] at hcb
    cases need_rsp <;>
      simp [handle_char_write, hfind, derefDef, hdef, hcb]
  · intro hfind need_rsp
    simp [handle_char_write, hfind]
  · intro i di hfind hdef hcb need_rsp
    simp only [List.getD, List.get?_eq_getElem?] at hcb
    simp [handle_char_write, hfind, derefDef, hdef, hcb]

/-- Witness for the amended C4 on the demo state: the writable path suppresses
the response when need_rsp is false, while an unknown handle is acknowledged
even without a response request. -/
theorem c4_need_rsp_amended_witness :
    find_char_by_handle demoState 42 = some 0 ∧
    (handle_char_write demoState 1 2 42 [5] false).1 = [] ∧
    (handle_char_write demoState 1 2 99 [5] false).1 =
      [StackOp.sendResponse 1 2 .ESP_GATT_INVALID_HANDLE none] := by
  refine ⟨by decide, ?_, ?_⟩
  · have h := ((c4_need_rsp_amended demoState 1 2 42 [5]).1 0 0 wCb
      (by decide) (by decide) rfl false)
    simpa using h
  · exact (c4_need_rsp_amended demoState 1 2 99 [5]).2.1 (by decide) false

/- ===== C1 ===== -/

/-- A characteristic with neither a read nor a write callback. -/
def noCapChar : ble_characteristic_t :=
  { uuid := 0xFF01, name := "n", size := 1, read := none, write := none,
    description := none }

/-- A syntactically well-formed server configuration whose single
characteristic has no capability at all. -/
def noCapConfig : ble_server_config_t :=
  { device_name := some "dev", service_uuid := 0xFF,
    characteristics := some [noCapChar], characteristic_count := 1 }

/-- C1, counterexample: initializing with a characteristic whose onRead and
onWrite are both absent does NOT fail — neither ble_server_init nor
ble_gatts_init inspects per-entry capabilities (src/ble-gatts.c:71-81 checks
only pointer, zero count and the 16-entry maximum), so the call returns
success and stack interaction proceeds. -/
theorem c1_counterexample :
    (ble_server_init initialBle initialGatts (some noCapConfig)).ret =
      .BLE_SUCCESS ∧
    (ble_server_init initialBle initialGatts (some noCapConfig)).ret ≠
      .BLE_INVALID_CONFIG ∧
    (ble_server_init initialBle initialGatts (some noCapConfig)).ops ≠ [] := by
  decide

/-- C1 as amended: configuration validation checks only the presence of the
config, the device name, a non-NULL non-empty characteristic array and the
16-entry maximum; the capabilities of individual entries are never inspected,
so a list containing capability-less entries is accepted and the call proceeds
to stack interaction. -/
theorem c1_no_capability_validation (chars : List ble_characteristic_t)
    (nm : String) (uuid : Nat) (h1 : 1 ≤ chars.length)
    (h16 : chars.length ≤ MAX_CHARACTERISTICS) :
    (ble_server_init initialBle initialGatts
      (some { device_name := some nm, service_uuid := uuid,
              characteristics := some chars,
              characteristic_count := chars.length })).ret = .BLE_SUCCESS ∧
    (ble_server_init initialBle initialGatts
      (some { device_name := some nm, service_uuid := uuid,
              characteristics := some chars,
              characteristic_count := chars.length })).ops ≠ [] := by
  have hne : chars.length ≠ 0 := by omega
  have hle : ¬ chars.length > MAX_CHARACTERISTICS := by omega
  constructor <;>
    simp [ble_server_init, ble_gatts_init, initialBle, hne, hle]

/-- Witness for the amended C1 at the concrete capability-less config. -/
theorem c1_no_capability_validation_witness :
    1 ≤ [noCapChar].length ∧
    (ble_server_init initialBle initialGatts
      (some { device_name := some "dev", service_uuid := 0xFF,
              characteristics := some [noCapChar],
              characteristic_count := [noCapChar].length })).ret = .BLE_SUCCESS :=
  ⟨by decide,
    (c1_no_capability_validation [noCapChar] "dev" 0xFF (by decide) (by decide)).1⟩

/- ===== C8 ===== -/

/-- Payload byte count carried by a send_response stack operation. -/
def payloadLen : StackOp → Nat
  | .sendResponse _ _ _ (some r) => r.2.2.2.length
  | _ => 0

/-- A read handler returning two bytes, attached to a size-1 characteristic. -/
def bigReadCb : Nat → Int × List Nat := fun _ => (2, [7, 8])

/-- A declared-size-1 characteristic whose read handler emits 2 bytes. -/
def bigChar : ble_characteristic_t :=
  { uuid := 0xFF03, name := "b", size := 1, read := some bigReadCb, write := none,
    description := none }

/-- Registered state holding only bigChar at value handle 42. -/
def bigState : GattsState :=
  { s_characteristics := [bigChar], s_char_count := 1, s_service_uuid := 0xFF,
    s_service_handle := 40, s_gatts_if := 3, s_conn_id := 0, s_is_connected := true,
    s_char_handles := fun j =>
      if j = 0 then { char_handle := 42, cccd_handle := 0, descr_handle := 0, def_idx := some 0 }
      else zeroHandleEntry,
    s_registered_chars := 1, s_pending_descr_char := 0 }

/-- C8, counterexample: the dispatcher never consults the characteristic's
declared size — a read on a size-1 characteristic whose callback returns 2
bytes sends a 2-byte success response, exceeding maxSize. -/
theorem c8_counterexample :
    (handle_char_read bigState 1 2 42 0).1 =
      [StackOp.sendResponse 1 2 .ESP_GATT_OK (some (42, 2, 0, [7, 8]))] ∧
    bigChar.size = 1 ∧ 1 < 2 := by
  refine ⟨?_, rfl, by decide⟩
  decide

/-- C8 as amended: the declared size field is not enforced by the dispatcher.
A read response's payload is bounded only by the 600-byte response buffer
(RSP_CAPACITY), and a write callback receives exactly the bytes the peer sent,
with no length check against maxSize. -/
theorem c8_size_not_enforced (s : GattsState) (connId transId handle offset : Nat)
    (value : List Nat) (need_rsp : Bool) :
    (∀ op ∈ (handle_char_read s connId transId handle offset).1,
      payloadLen op ≤ RSP_CAPACITY) ∧
    (∀ i di cb, find_char_by_handle s handle = some i →
      (s.s_char_handles i).def_idx = some di →
      (s.s_characteristics.getD di dummyChar).write = some cb →
      (handle_char_write s connId transId handle value need_rsp).2 =
        [CbCall.writeCb di value]) := by
  constructor
  · intro op hop
    unfold handle_char_read at hop
    cases hfd : find_char_by_descr_handle s handle with
    | some i =>
      cases hdesc : (derefDef s (s.s_char_handles i)).description with
      | some d =>
        by_cases hoff : offset ≥ d.length
        · simp [hfd, hdesc, hoff] at hop
          simp [hop, payloadLen]
        · simp [hfd, hdesc, hoff] at hop
          simp [hop, payloadLen, List.length_take, RSP_CAPACITY]
      | none =>
        simp [hfd, hdesc] at hop
        simp [hop, payloadLen]
    | none =>
      cases hfc : find_char_by_handle s handle with
      | none =>
        simp [hfd, hfc] at hop
        simp [hop, payloadLen]
      | some i =>
        cases hread : (derefDef s (s.s_char_handles i)).read with
        | none =>
          simp [hfd, hfc, hread] at hop
          simp [hop, payloadLen]
        | some cb =>
          by_cases hneg : (cb RSP_CAPACITY).1 < 0
          · simp [hfd, hfc, hread, hneg] at hop
            simp [hop, payloadLen]
          · simp [hfd, hfc, hread, hneg] at hop
            simp [hop, payloadLen, List.length_take, List.length_append,
              List.length_replicate]
  · intro i di cb hfind hdef hcb
    simp only [List.getD, List.get?_eq_getElem?] at hcb
    simp [handle_char_write, hfind, derefDef, hdef, hcb]

/-- Witness for the amended C8 on bigState: the oversized 2-byte response is
within the 600-byte buffer bound, and a 3-byte write to the demo size-1
writable characteristic reaches its callback unclipped. -/
theorem c8_size_not_enforced_witness :
    (∀ op ∈ (handle_char_read bigState 1 2 42 0).1, payloadLen op ≤ RSP_CAPACITY) ∧
    (handle_char_write demoState 1 2 42 [1, 2, 3] true).2 =
      [CbCall.writeCb 0 [1, 2, 3]] :=
  ⟨(c8_size_not_enforced bigState 1 2 42 0 [] true).1,
    (c8_size_not_enforced demoState 1 2 42 0 [1, 2, 3] true).2 0 0 wCb
      (by decide) (by decide) rfl⟩

/- ===== Run-function unfolding and step lemmas for the registration
state machine ===== -/

@[simp] lemma runState_nil (s : GattsState) (gif : Nat) : runState s gif [] = s := rfl

@[simp] lemma runState_cons (s : GattsState) (gif : Nat) (e : GattsEvent)
    (es : List GattsEvent) :
    runState s gif (e :: es) = runState (gatts_event_handler s gif e).st gif es := rfl

@[simp] lemma runOps_nil (s : GattsState) (gif : Nat) : runOps s gif [] = [] := rfl

@[simp] lemma runOps_cons (s : GattsState) (gif : Nat) (e : GattsEvent)
    (es : List GattsEvent) :
    runOps s gif (e :: es) =
      (gatts_event_handler s gif e).ops ++ runOps (gatts_event_handler s gif e).st gif es := rfl

@[simp] lemma runStates_nil (s : GattsState) (gif : Nat) : runStates s gif [] = [s] := rfl

@[simp] lemma runStates_cons (s : GattsState) (gif : Nat) (e : GattsEvent)
    (es : List GattsEvent) :
    runStates s gif (e :: es) = s :: runStates (gatts_event_handler s gif e).st gif es := rfl

/-- An element exposed by List.drop is the getD element at that index. -/
lemma getD_of_drop {α : Type} (l : List α) (i : Nat) (c : α) (cs : List α) (d : α)
    (h : l.drop i = c :: cs) : l.getD i d = c := by
  have h0 : l[i]? = some c := by
    have h2 := List.getElem?_drop l i 0
    rw [h] at h2
    simpa using h2.symm
  simp [List.getD, h0]

/-- Dropping one more element after List.drop. -/
lemma drop_succ_of_drop {α : Type} (l : List α) (i : Nat) (c : α) (cs : List α)
    (h : l.drop i = c :: cs) : l.drop (i + 1) = cs := by
  have h2 : List.drop 1 (List.drop i l) = List.drop (i + 1) l := List.drop_drop 1 i l
  rw [h] at h2
  simpa using h2.symm

/-- ESP_GATTS_ADD_CHAR_EVT step when the current characteristic has no
description (src/ble-gatts.c:265-299): record the value handle and the
definition back-reference, advance the index, and issue the next add if one
remains. -/
lemma step_addChar_noDescr (s : GattsState) (gif attr : Nat)
    (h1 : s.s_registered_chars < s.s_char_count)
    (h2 : hasDescription (s.s_characteristics.getD s.s_registered_chars dummyChar) = false) :
    gatts_event_handler s gif (.addCharEvt .ESP_GATT_OK attr) =
      { st := { s with
                s_char_handles := fun j => if j = s.s_registered_chars then
                    { s.s_char_handles j with
                      char_handle := attr,
                      def_idx := some s.s_registered_chars }
                  else s.s_char_handles j,
                s_registered_chars := s.s_registered_chars + 1 },
        ops := if s.s_registered_chars + 1 < s.s_char_count then
            [issueAddChar s.s_service_handle
              (s.s_characteristics.getD (s.s_registered_chars + 1) dummyChar)]
          else [],
        calls := [] } := by
  simp only [gatts_event_handler, if_pos rfl, h1, if_true, h2, Bool.false_eq_true,
    if_false, dite_eq_ite]
  split <;> simp

/-- ESP_GATTS_ADD_CHAR_EVT step when the current characteristic carries a
description (src/ble-gatts.c:239-264): record the value handle, remember the
pending index and issue the descriptor add. -/
lemma step_addChar_descr (s : GattsState) (gif attr : Nat)
    (h1 : s.s_registered_chars < s.s_char_count)
    (h2 : hasDescription (s.s_characteristics.getD s.s_registered_chars dummyChar) = true) :
    gatts_event_handler s gif (.addCharEvt .ESP_GATT_OK attr) =
      { st := { s with
                s_char_handles := fun j => if j = s.s_registered_chars then
                    { s.s_char_handles j with
                      char_handle := attr,
                      def_idx := some s.s_registered_chars }
                  else s.s_char_handles j,
                s_pending_descr_char := s.s_registered_chars },
        ops := [StackOp.addCharDescr s.s_service_handle 0x2901 1
                  (descBytes (s.s_characteristics.getD s.s_registered_chars dummyChar))],
        calls := [] } := by
  simp only [List.getD, List.get?_eq_getElem?] at h2
  simp [gatts_event_handler, h1, h2]

/-- ESP_GATTS_ADD_CHAR_DESCR_EVT step (src/ble-gatts.c:304-355): record the
descriptor handle at the pending index, advance the count of registered
characteristics, and issue the next add if one remains. -/
lemma step_addDescr (s : GattsState) (gif attr : Nat)
    (h1 : s.s_pending_descr_char < s.s_char_count) :
    gatts_event_handler s gif (.addCharDescrEvt .ESP_GATT_OK attr) =
      { st := { s with
                s_char_handles := fun j => if j = s.s_pending_descr_char then
                    { s.s_char_handles j with descr_handle := attr }
                  else s.s_char_handles j,
                s_registered_chars := s.s_registered_chars + 1 },
        ops := if s.s_registered_chars + 1 < s.s_char_count then
            [issueAddChar s.s_service_handle
              (s.s_characteristics.getD (s.s_registered_chars + 1) dummyChar)]
          else [],
        calls := [] } := by
  simp only [gatts_event_handler, if_pos rfl, h1, if_true]
  split <;> simp

/-- Invariant-carrying run of the per-characteristic completion events for the
suffix of the characteristic list starting at index i: the machine registers
every remaining characteristic, fills the handle table exactly at indices
i..N-1, leaves all other table slots untouched, issues one add-characteristic
per remaining characteristic except the current one (whose add was issued by
the previous completion) and one add-descriptor per description-carrying
entry, and keeps the progress index and pending index within bounds at every
intermediate state. -/
lemma run_chars (chars : List ble_characteristic_t) (gif : Nat) (vh dh : Nat → Nat)
    (rest : List ble_characteristic_t) :
    ∀ (i : Nat) (s : GattsState),
      s.s_characteristics = chars →
      s.s_char_count = chars.length →
      s.s_registered_chars = i →
      chars.drop i = rest →
      i + rest.length = chars.length →
      (runState s gif (charEvents vh dh i rest)).s_registered_chars = chars.length ∧
      (∀ j, j < i →
        (runState s gif (charEvents vh dh i rest)).s_char_handles j = s.s_char_handles j) ∧
      (∀ j, i ≤ j → j < chars.length →
        ((runState s gif (charEvents vh dh i rest)).s_char_handles j).char_handle = vh j ∧
        ((runState s gif (charEvents vh dh i rest)).s_char_handles j).def_idx = some j ∧
        ((runState s gif (charEvents vh dh i rest)).s_char_handles j).descr_handle =
          (if hasDescription (chars.getD j dummyChar) then dh j
           else (s.s_char_handles j).descr_handle)) ∧
      (∀ j, chars.length ≤ j →
        (runState s gif (charEvents vh dh i rest)).s_char_handles j = s.s_char_handles j) ∧
      countOps isAddCharOp (runOps s gif (charEvents vh dh i rest)) = rest.length - 1 ∧
      countOps isAddDescrOp (runOps s gif (charEvents vh dh i rest)) =
        (rest.filter hasDescription).length ∧
      (∀ st ∈ runStates s gif (charEvents vh dh i rest),
        i ≤ st.s_registered_chars ∧ st.s_registered_chars ≤ chars.length ∧
        (st.s_pending_descr_char = s.s_pending_descr_char ∨
          st.s_pending_descr_char < chars.length)) := by
  induction rest with
  | nil =>
    intro i s hchars hcount hreg hdrop hlen
    simp only [List.length_nil, Nat.add_zero] at hlen
    subst hlen
    simp only [charEvents, runState_nil, runOps_nil, runStates_nil]
    refine ⟨hreg, fun j _ => trivial, ?_, fun j _ => trivial, by simp [countOps],
      by simp [countOps], ?_⟩
    · intro j hij hjn
      omega
    · intro st hst
      simp only [List.mem_singleton] at hst
      subst hst
      exact ⟨le_of_eq hreg.symm, le_of_eq hreg, Or.inl rfl⟩
  | cons c cs ih =>
    intro i s hchars hcount hreg hdrop hlen
    simp only [List.length_cons] at hlen
    have hi : i < chars.length := by omega
    have hcur : chars.getD i dummyChar = c := getD_of_drop chars i c cs dummyChar hdrop
    have hcur2 : chars[i]?.getD dummyChar = c := by
      simpa [List.getD, List.get?_eq_getElem?] using hcur
    have hdrop2 : chars.drop (i + 1) = cs := drop_succ_of_drop chars i c cs hdrop
    have hlen2 : i + 1 + cs.length = chars.length := by omega
    have h1 : s.s_registered_chars < s.s_char_count := by rw [hreg, hcount]; exact hi
    cases hd : hasDescription c with
    | false =>
      have h2 : hasDescription (s.s_characteristics.getD s.s_registered_chars dummyChar)
          = false := by rw [hchars, hreg, hcur]; exact hd
      have hstep := step_addChar_noDescr s gif (vh i) h1 h2
      have hevents : charEvents vh dh i (c :: cs) =
          GattsEvent.addCharEvt .ESP_GATT_OK (vh i) :: charEvents vh dh (i + 1) cs := by
        simp [charEvents, hd]
      set s1 := (gatts_event_handler s gif (GattsEvent.addCharEvt .ESP_GATT_OK (vh i))).st
        with hs1
      have hops1 : (gatts_event_handler s gif
            (GattsEvent.addCharEvt .ESP_GATT_OK (vh i))).ops =
          if i + 1 < chars.length then
            [issueAddChar s.s_service_handle (chars.getD (i + 1) dummyChar)]
          else [] := by
        rw [hstep]
        simp [hreg, hchars, hcount]
      have hc1 : s1.s_characteristics = chars := by rw [hs1, hstep]; simpa using hchars
      have hn1 : s1.s_char_count = chars.length := by rw [hs1, hstep]; simpa using hcount
      have hr1 : s1.s_registered_chars = i + 1 := by rw [hs1, hstep]; simpa using hreg
      have hp1 : s1.s_pending_descr_char = s.s_pending_descr_char := by
        rw [hs1, hstep]
      have hta : s1.s_char_handles i =
          { s.s_char_handles i with char_handle := vh i, def_idx := some i } := by
        rw [hs1, hstep]
        simp [hreg]
      have htb : ∀ j, j ≠ i → s1.s_char_handles j = s.s_char_handles j := by
        intro j hj
        rw [hs1, hstep]
        simp [hreg, hj]
      obtain ⟨ihA, ihC, ihD, ihE, ihF, ihG, ihH⟩ :=
        ih (i + 1) s1 hc1 hn1 hr1 hdrop2 hlen2
      rw [hevents]
      simp only [runState_cons, runOps_cons, runStates_cons]
      simp only [← hs1]
      refine ⟨ihA, ?_, ?_, ?_, ?_, ?_, ?_⟩
      · intro j hj
        rw [ihC j (by omega), htb j (by omega)]
      · intro j hij hjn
        rcases Nat.eq_or_lt_of_le hij with hji | hji
        · subst hji
          have hx := ihC i (by omega)
          rw [hx, hta]
          simp [hcur, hcur2, hd]
        · have hx := ihD j (by omega) hjn
          rw [htb j (by omega)] at hx
          exact hx
      · intro j hj
        rw [ihE j hj, htb j (by omega)]
      · simp only [countOps, List.filter_append, List.length_append] at ihF ⊢
        rw [hops1]
        by_cases hnext : i + 1 < chars.length
        · simp only [hnext, if_true]
          simp [isAddCharOp, issueAddChar, ihF]
          omega
        · have hcs : cs = [] := by
            have : cs.length = 0 := by omega
            exact List.length_eq_zero.mp this
          subst hcs
          simp [hnext, charEvents]
      · simp only [countOps, List.filter_append, List.length_append] at ihG ⊢
        rw [hops1]
        by_cases hnext : i + 1 < chars.length
        · simp [hnext, isAddDescrOp, issueAddChar, ihG, List.filter_cons, hd]
          try omega
        · simp [hnext, ihG, List.filter_cons, hd]
          try omega
      · intro st hst
        simp only [List.mem_cons] at hst
        rcases hst with hst | hst
        · subst hst
          exact ⟨le_of_eq hreg.symm, by omega, Or.inl rfl⟩
        · obtain ⟨hA, hB, hC⟩ := ihH st hst
          refine ⟨by omega, hB, ?_⟩
          rcases hC with hC | hC
          · rw [hp1] at hC
            exact Or.inl hC
          · exact Or.inr hC
    | true =>
      have h2 : hasDescription (s.s_characteristics.getD s.s_registered_chars dummyChar)
          = true := by rw [hchars, hreg, hcur]; exact hd
      have hstep := step_addChar_descr s gif (vh i) h1 h2
      have hevents : charEvents vh dh i (c :: cs) =
          GattsEvent.addCharEvt .ESP_GATT_OK (vh i) ::
            GattsEvent.addCharDescrEvt .ESP_GATT_OK (dh i) ::
              charEvents vh dh (i + 1) cs := by
        simp [charEvents, hd]
      set s1 := (gatts_event_handler s gif (GattsEvent.addCharEvt .ESP_GATT_OK (vh i))).st
        with hs1
      have hops1 : (gatts_event_handler s gif
            (GattsEvent.addCharEvt .ESP_GATT_OK (vh i))).ops =
          [StackOp.addCharDescr s.s_service_handle 0x2901 1 (descBytes c)] := by
        rw [hstep]
        simp [hreg, hchars, hcur, hcur2]
      have hc1 : s1.s_characteristics = chars := by rw [hs1, hstep]; simpa using hchars
      have hn1 : s1.s_char_count = chars.length := by rw [hs1, hstep]; simpa using hcount
      have hr1 : s1.s_registered_chars = i := by rw [hs1, hstep]; simpa using hreg
      have hp1 : s1.s_pending_descr_char = i := by rw [hs1, hstep]; simpa using hreg
      have hta : s1.s_char_handles i =
          { s.s_char_handles i with char_handle := vh i, def_idx := some i } := by
        rw [hs1, hstep]
        simp [hreg]
      have htb : ∀ j, j ≠ i → s1.s_char_handles j = s.s_char_handles j := by
        intro j hj
        rw [hs1, hstep]
        simp [hreg, hj]
      have h1d : s1.s_pending_descr_char < s1.s_char_count := by
        rw [hp1, hn1]; exact hi
      have hstep2 := step_addDescr s1 gif (dh i) h1d
      set s2 := (gatts_event_handler s1 gif (GattsEvent.addCharDescrEvt .ESP_GATT_OK (dh i))).st
        with hs2
      have hops2 : (gatts_event_handler s1 gif
            (GattsEvent.addCharDescrEvt .ESP_GATT_OK (dh i))).ops =
          if i + 1 < chars.length then
            [issueAddChar s1.s_service_handle (chars.getD (i + 1) dummyChar)]
          else [] := by
        rw [hstep2]
        simp [hr1, hc1, hn1]
      have hc2 : s2.s_characteristics = chars := by rw [hs2, hstep2]; simpa using hc1
      have hn2 : s2.s_char_count = chars.length := by rw [hs2, hstep2]; simpa using hn1
      have hr2 : s2.s_registered_chars = i + 1 := by rw [hs2, hstep2]; simpa using hr1
      have hp2 : s2.s_pending_descr_char = i := by rw [hs2, hstep2]; simpa using hp1
      have hta2 : s2.s_char_handles i =
          { s1.s_char_handles i with descr_handle := dh i } := by
        rw [hs2, hstep2]
        simp [hp1]
      have htb2 : ∀ j, j ≠ i → s2.s_char_handles j = s1.s_char_handles j := by
        intro j hj
        rw [hs2, hstep2]
        simp [hp1, hj]
      obtain ⟨ihA, ihC, ihD, ihE, ihF, ihG, ihH⟩ :=
        ih (i + 1) s2 hc2 hn2 hr2 hdrop2 hlen2
      rw [hevents]
      simp only [runState_cons, runOps_cons, runStates_cons]
      simp only [← hs1, ← hs2]
      refine ⟨ihA, ?_, ?_, ?_, ?_, ?_, ?_⟩
      · intro j hj
        rw [ihC j (by omega), htb2 j (by omega), htb j (by omega)]
      · intro j hij hjn
        rcases Nat.eq_or_lt_of_le hij with hji | hji
        · subst hji
          have hx := ihC i (by omega)
          rw [hx, hta2, hta]
          simp [hcur, hcur2, hd]
        · have hx := ihD j (by omega) hjn
          rw [htb2 j (by omega), htb j (by omega)] at hx
          exact hx
      · intro j hj
        rw [ihE j hj, htb2 j (by omega), htb j (by omega)]
      · simp only [countOps, List.filter_append, List.length_append] at ihF ⊢
        rw [hops1, hops2]
        by_cases hnext : i + 1 < chars.length
        · simp only [hnext, if_true]
          simp [isAddCharOp, issueAddChar, ihF]
          omega
        · have hcs : cs = [] := by
            have : cs.length = 0 := by omega
            exact List.length_eq_zero.mp this
          subst hcs
          simp [hnext, charEvents, isAddCharOp]
      · simp only [countOps, List.filter_append, List.length_append] at ihG ⊢
        rw [hops1, hops2]
        by_cases hnext : i + 1 < chars.length
        · simp [hnext, isAddDescrOp, issueAddChar, ihG, List.filter_cons, hd]
          try omega
        · simp [hnext, ihG, List.filter_cons, hd, isAddDescrOp]
          try omega
      · intro st hst
        simp only [List.mem_cons] at hst
        rcases hst with hst | hst | hst
        · subst hst
          exact ⟨le_of_eq hreg.symm, by omega, Or.inl rfl⟩
        · subst hst
          exact ⟨le_of_eq hr1.symm, by omega, Or.inr (by rw [hp1]; exact hi)⟩
        · obtain ⟨hA, hB, hC⟩ := ihH st hst
          refine ⟨by omega, hB, ?_⟩
          rcases hC with hC | hC
          · rw [hp2] at hC
            exact Or.inr (by omega)
          · exact Or.inr hC

/-- ESP_GATTS_REG_EVT step (src/ble-gatts.c:141-169): record the interface and
issue service creation with the 1 + 3N handle budget. -/
lemma step_reg (s : GattsState) (gif : Nat) :
    gatts_event_handler s gif (.regEvt .ESP_GATT_OK) =
      { st := { s with s_gatts_if := gif },
        ops := [StackOp.createService s.s_service_uuid (CALC_NUM_HANDLES s.s_char_count)],
        calls := [] } := by
  simp [gatts_event_handler]

/-- ESP_GATTS_CREATE_EVT step (src/ble-gatts.c:171-216): record the service
handle, start the service, and issue the first characteristic add. -/
lemma step_create (s : GattsState) (gif h : Nat) :
    gatts_event_handler s gif (.createEvt .ESP_GATT_OK h) =
      { st := { s with s_service_handle := h },
        ops := StackOp.startService h ::
          (if s.s_char_count > 0 then
            [issueAddChar h (s.s_characteristics.getD 0 dummyChar)] else []),
        calls := [] } := by
  simp [gatts_event_handler]

/-- No event handler ever decreases the count of registered characteristics. -/
lemma handler_registered_mono (s : GattsState) (gif : Nat) (e : GattsEvent) :
    s.s_registered_chars ≤ (gatts_event_handler s gif e).st.s_registered_chars := by
  cases e with
  | regEvt st => by_cases h : st = .ESP_GATT_OK <;> simp [gatts_event_handler, h]
  | createEvt st hd => by_cases h : st = .ESP_GATT_OK <;> simp [gatts_event_handler, h]
  | addCharEvt st attr =>
    by_cases h : st = .ESP_GATT_OK
    · subst h
      simp only [gatts_event_handler, if_pos rfl]
      by_cases h2 : s.s_registered_chars < s.s_char_count
      · cases hd : hasDescription (s.s_characteristics.getD s.s_registered_chars dummyChar)
        · by_cases h3 : s.s_registered_chars + 1 < s.s_char_count <;>
            simp [h2, hd, h3]
        · simp [h2, hd]
      · simp [h2]
    · simp [gatts_event_handler, h]
  | addCharDescrEvt st attr =>
    by_cases h : st = .ESP_GATT_OK
    · subst h
      simp only [gatts_event_handler, if_pos rfl]
      by_cases h2 : s.s_pending_descr_char < s.s_char_count
      · by_cases h3 : s.s_registered_chars + 1 < s.s_char_count <;>
          simp [h2, h3]
      · simp [h2]
    · simp [gatts_event_handler, h]
  | connectEvt cid bda => simp [gatts_event_handler]
  | disconnectEvt r => simp [gatts_event_handler]
  | readEvt c t hd off => simp [gatts_event_handler]
  | writeEvt c t hd v nr => simp [gatts_event_handler]
  | mtuEvt m => simp [gatts_event_handler]
  | startEvt st => simp [gatts_event_handler]

/-- No event handler ever writes a handle-table slot at or beyond
s_char_count: both table writes (src/ble-gatts.c:229-230 and :315) are guarded
by an index-below-count check. -/
lemma handler_table_frame (s : GattsState) (gif : Nat) (e : GattsEvent) (j : Nat)
    (hj : s.s_char_count ≤ j) :
    (gatts_event_handler s gif e).st.s_char_handles j = s.s_char_handles j := by
  cases e with
  | regEvt st => by_cases h : st = .ESP_GATT_OK <;> simp [gatts_event_handler, h]
  | createEvt st hd => by_cases h : st = .ESP_GATT_OK <;> simp [gatts_event_handler, h]
  | addCharEvt st attr =>
    by_cases h : st = .ESP_GATT_OK
    · subst h
      simp only [gatts_event_handler, if_pos rfl]
      by_cases h2 : s.s_registered_chars < s.s_char_count
      · have hne : j ≠ s.s_registered_chars := by omega
        cases hd : hasDescription (s.s_characteristics.getD s.s_registered_chars dummyChar)
        · by_cases h3 : s.s_registered_chars + 1 < s.s_char_count <;>
            simp [h2, hd, h3, hne]
        · simp [h2, hd, hne]
      · simp [h2]
    · simp [gatts_event_handler, h]
  | addCharDescrEvt st attr =>
    by_cases h : st = .ESP_GATT_OK
    · subst h
      simp only [gatts_event_handler, if_pos rfl]
      by_cases h2 : s.s_pending_descr_char < s.s_char_count
      · have hne : j ≠ s.s_pending_descr_char := by omega
        by_cases h3 : s.s_registered_chars + 1 < s.s_char_count <;>
          simp [h2, h3, hne]
      · simp [h2]
    · simp [gatts_event_handler, h]
  | connectEvt cid bda => simp [gatts_event_handler]
  | disconnectEvt r => simp [gatts_event_handler]
  | readEvt c t hd off => simp [gatts_event_handler]
  | writeEvt c t hd v nr => simp [gatts_event_handler]
  | mtuEvt m => simp [gatts_event_handler]
  | startEvt st => simp [gatts_event_handler]

/-- No event handler ever changes s_char_count. -/
lemma handler_count_const (s : GattsState) (gif : Nat) (e : GattsEvent) :
    (gatts_event_handler s gif e).st.s_char_count = s.s_char_count := by
  cases e with
  | regEvt st => by_cases h : st = .ESP_GATT_OK <;> simp [gatts_event_handler, h]
  | createEvt st hd => by_cases h : st = .ESP_GATT_OK <;> simp [gatts_event_handler, h]
  | addCharEvt st attr =>
    by_cases h : st = .ESP_GATT_OK
    · subst h
      simp only [gatts_event_handler, if_pos rfl]
      by_cases h2 : s.s_registered_chars < s.s_char_count
      · cases hd : hasDescription (s.s_characteristics.getD s.s_registered_chars dummyChar)
        · by_cases h3 : s.s_registered_chars + 1 < s.s_char_count <;>
            simp [h2, hd, h3]
        · simp [h2, hd]
      · simp [h2]
    · simp [gatts_event_handler, h]
  | addCharDescrEvt st attr =>
    by_cases h : st = .ESP_GATT_OK
    · subst h
      simp only [gatts_event_handler, if_pos rfl]
      by_cases h2 : s.s_pending_descr_char < s.s_char_count
      · by_cases h3 : s.s_registered_chars + 1 < s.s_char_count <;>
          simp [h2, h3]
      · simp [h2]
    · simp [gatts_event_handler, h]
  | connectEvt cid bda => simp [gatts_event_handler]
  | disconnectEvt r => simp [gatts_event_handler]
  | readEvt c t hd off => simp [gatts_event_handler]
  | writeEvt c t hd v nr => simp [gatts_event_handler]
  | mtuEvt m => simp [gatts_event_handler]
  | startEvt st => simp [gatts_event_handler]

/-- s_char_count is constant along any event run. -/
lemma runStates_count_const (gif : Nat) :
    ∀ (evs : List GattsEvent) (s : GattsState), ∀ st ∈ runStates s gif evs,
      st.s_char_count = s.s_char_count := by
  intro evs
  induction evs with
  | nil =>
    intro s st hst
    simp only [runStates_nil, List.mem_singleton] at hst
    subst hst
    rfl
  | cons e es ihe =>
    intro s st hst
    simp only [runStates_cons, List.mem_cons] at hst
    rcases hst with h | h
    · subst h
      rfl
    · rw [ihe _ st h, handler_count_const]

/-- s_char_count is unchanged by a whole event run. -/
lemma runState_count_const (gif : Nat) :
    ∀ (evs : List GattsEvent) (s : GattsState),
      (runState s gif evs).s_char_count = s.s_char_count := by
  intro evs
  induction evs with
  | nil => intro s; rfl
  | cons e es ihe =>
    intro s
    rw [runState_cons, ihe, handler_count_const]

/-- The GATTS module state right after a successful ble_gatts_init for a
characteristic list of length 1..16. -/
def postInitState (chars : List ble_characteristic_t) (uuid : Nat) : GattsState :=
  (ble_gatts_init initialGatts (some chars) chars.length uuid).st

/-- Final module state after the canonical registration trace. -/
def regRunState (chars : List ble_characteristic_t) (uuid gif svcH : Nat)
    (vh dh : Nat → Nat) : GattsState :=
  runState (postInitState chars uuid) gif (regTrace chars svcH vh dh)

/-- Stack operations issued along the canonical registration trace. -/
def regRunOps (chars : List ble_characteristic_t) (uuid gif svcH : Nat)
    (vh dh : Nat → Nat) : List StackOp :=
  runOps (postInitState chars uuid) gif (regTrace chars svcH vh dh)

/-- All module states passed through along the canonical registration trace. -/
def regRunStates (chars : List ble_characteristic_t) (uuid gif svcH : Nat)
    (vh dh : Nat → Nat) : List GattsState :=
  runStates (postInitState chars uuid) gif (regTrace chars svcH vh dh)

/-- Full summary of the canonical registration run from a fresh init: the
machine ends with all N characteristics registered, the handle table filled
by index with untouched zero entries elsewhere, exactly N add-characteristic
and one-add-descriptor-per-description operations issued, and the progress
and pending indices within bounds at every intermediate state. -/
lemma reg_run_summary (chars : List ble_characteristic_t) (uuid gif svcH : Nat)
    (vh dh : Nat → Nat) (h1 : 1 ≤ chars.length)
    (h16 : chars.length ≤ MAX_CHARACTERISTICS) :
    (regRunState chars uuid gif svcH vh dh).s_registered_chars = chars.length ∧
    (regRunState chars uuid gif svcH vh dh).s_char_count = chars.length ∧
    (∀ j, j < chars.length →
      ((regRunState chars uuid gif svcH vh dh).s_char_handles j).char_handle = vh j ∧
      ((regRunState chars uuid gif svcH vh dh).s_char_handles j).def_idx = some j ∧
      ((regRunState chars uuid gif svcH vh dh).s_char_handles j).descr_handle =
        (if hasDescription (chars.getD j dummyChar) then dh j else 0)) ∧
    (∀ j, chars.length ≤ j →
      (regRunState chars uuid gif svcH vh dh).s_char_handles j = zeroHandleEntry) ∧
    countOps isAddCharOp (regRunOps chars uuid gif svcH vh dh) = chars.length ∧
    countOps isAddDescrOp (regRunOps chars uuid gif svcH vh dh) =
      (chars.filter hasDescription).length ∧
    (∀ st ∈ regRunStates chars uuid gif svcH vh dh,
      st.s_registered_chars ≤ chars.length ∧
      st.s_pending_descr_char < chars.length) := by
  have hne : chars.length ≠ 0 := by omega
  have hgt : ¬ chars.length > MAX_CHARACTERISTICS := by omega
  simp only [regRunState, regRunOps, regRunStates, regTrace]
  set sI := postInitState chars uuid with hsI
  have hIc : sI.s_characteristics = chars := by
    simp [hsI, postInitState, ble_gatts_init, hne, hgt]
  have hIn : sI.s_char_count = chars.length := by
    simp [hsI, postInitState, ble_gatts_init, hne, hgt]
  have hIu : sI.s_service_uuid = uuid := by
    simp [hsI, postInitState, ble_gatts_init, hne, hgt]
  have hIr : sI.s_registered_chars = 0 := by
    simp [hsI, postInitState, ble_gatts_init, hne, hgt]
  have hIp : sI.s_pending_descr_char = 0 := by
    simp [hsI, postInitState, ble_gatts_init, hne, hgt, initialGatts]
  have hIt : ∀ j, sI.s_char_handles j = zeroHandleEntry := by
    intro j
    simp [hsI, postInitState, ble_gatts_init, hne, hgt]
  simp only [runState_cons, runOps_cons, runStates_cons]
  set s1 := (gatts_event_handler sI gif (GattsEvent.regEvt .ESP_GATT_OK)).st with hs1
  have h1c : s1.s_characteristics = chars := by rw [hs1, step_reg]; simpa using hIc
  have h1n : s1.s_char_count = chars.length := by rw [hs1, step_reg]; simpa using hIn
  have h1r : s1.s_registered_chars = 0 := by rw [hs1, step_reg]; simpa using hIr
  have h1p : s1.s_pending_descr_char = 0 := by rw [hs1, step_reg]; simpa using hIp
  have h1t : ∀ j, s1.s_char_handles j = zeroHandleEntry := by
    intro j
    rw [hs1, step_reg]
    simpa using hIt j
  have hops1 : (gatts_event_handler sI gif (GattsEvent.regEvt .ESP_GATT_OK)).ops =
      [StackOp.createService uuid (CALC_NUM_HANDLES chars.length)] := by
    rw [step_reg, hIu, hIn]
  set s2 := (gatts_event_handler s1 gif (GattsEvent.createEvt .ESP_GATT_OK svcH)).st with hs2
  have h2c : s2.s_characteristics = chars := by rw [hs2, step_create]; simpa using h1c
  have h2n : s2.s_char_count = chars.length := by rw [hs2, step_create]; simpa using h1n
  have h2r : s2.s_registered_chars = 0 := by rw [hs2, step_create]; simpa using h1r
  have h2p : s2.s_pending_descr_char = 0 := by rw [hs2, step_create]; simpa using h1p
  have h2t : ∀ j, s2.s_char_handles j = zeroHandleEntry := by
    intro j
    rw [hs2, step_create]
    simpa using h1t j
  have hops2 : (gatts_event_handler s1 gif (GattsEvent.createEvt .ESP_GATT_OK svcH)).ops =
      [StackOp.startService svcH, issueAddChar svcH (chars.getD 0 dummyChar)] := by
    rw [step_create]
    have : s1.s_char_count > 0 := by omega
    simp [this, h1c]
  obtain ⟨ihA, ihC, ihD, ihE, ihF, ihG, ihH⟩ :=
    run_chars chars gif vh dh chars 0 s2 h2c h2n h2r (List.drop_zero chars) (by omega)
  refine ⟨ihA, ?_, ?_, ?_, ?_, ?_, ?_⟩
  · rw [runState_count_const gif (charEvents vh dh 0 chars) s2, h2n]
  · intro j hj
    obtain ⟨hA, hB, hC⟩ := ihD j (by omega) hj
    refine ⟨hA, hB, ?_⟩
    rw [hC, h2t j]
    rfl
  · intro j hj
    rw [ihE j hj, h2t j]
  · simp only [countOps, List.filter_append, List.length_append] at ihF ⊢
    rw [hops1, hops2]
    simp [isAddCharOp, issueAddChar, ihF]
    omega
  · simp only [countOps, List.filter_append, List.length_append] at ihG ⊢
    rw [hops1, hops2]
    simp [isAddDescrOp, issueAddChar, ihG]
  · intro st hst
    simp only [List.mem_cons] at hst
    rcases hst with hst | hst | hst
    · subst hst
      exact ⟨by omega, by omega⟩
    · subst hst
      exact ⟨by omega, by omega⟩
    · obtain ⟨hA, hB, hC⟩ := ihH st hst
      refine ⟨hB, ?_⟩
      rcases hC with hC | hC
      · rw [h2p] at hC
        omega
      · exact hC

/- ===== C2 ===== -/

/-- C2: for every valid characteristic list of size 1..16 with each entry
having at least one capability, delivering the stack's completion events in
order issues exactly N add-characteristic operations plus one add-descriptor
operation per entry with a non-empty description (so between N and 2N add
operations in total), and ends with all N characteristics registered (the
code's Ready condition, s_registered_chars = s_char_count) and the i-th
recorded value handle stored at slot i with its definition back-reference
pointing at definition i. -/
theorem c2_registration_state_machine (chars : List ble_characteristic_t)
    (uuid gif svcH : Nat) (vh dh : Nat → Nat)
    (h1 : 1 ≤ chars.length) (h16 : chars.length ≤ MAX_CHARACTERISTICS)
    (hcap : ∀ ch ∈ chars, ch.read.isSome ∨ ch.write.isSome) :
    countOps isAddCharOp (regRunOps chars uuid gif svcH vh dh) = chars.length ∧
    countOps isAddDescrOp (regRunOps chars uuid gif svcH vh dh) =
      (chars.filter hasDescription).length ∧
    chars.length ≤ countOps isAddCharOp (regRunOps chars uuid gif svcH vh dh) +
      countOps isAddDescrOp (regRunOps chars uuid gif svcH vh dh) ∧
    countOps isAddCharOp (regRunOps chars uuid gif svcH vh dh) +
      countOps isAddDescrOp (regRunOps chars uuid gif svcH vh dh) ≤ 2 * chars.length ∧
    (regRunState chars uuid gif svcH vh dh).s_registered_chars = chars.length ∧
    (∀ i, i < chars.length →
      ((regRunState chars uuid gif svcH vh dh).s_char_handles i).char_handle = vh i ∧
      ((regRunState chars uuid gif svcH vh dh).s_char_handles i).def_idx = some i) := by
  obtain ⟨hA, hB, hC, hD, hE, hF, hG⟩ := reg_run_summary chars uuid gif svcH vh dh h1 h16
  have hfil : (chars.filter hasDescription).length ≤ chars.length :=
    List.length_filter_le _ _
  refine ⟨hE, hF, by omega, by omega, hA, ?_⟩
  intro i hi
  exact ⟨(hC i hi).1, (hC i hi).2.1⟩

/-- Witness for C2 on a two-characteristic list (one entry with a
description): two add-characteristic operations, one add-descriptor
operation, final progress index 2. -/
theorem c2_registration_state_machine_witness :
    (∀ ch ∈ [rChar, wChar], ch.read.isSome ∨ ch.write.isSome) ∧
    countOps isAddCharOp
      (regRunOps [rChar, wChar] 0xFF 3 40 (fun i => 42 + 2 * i) (fun _ => 46)) = 2 ∧
    countOps isAddDescrOp
      (regRunOps [rChar, wChar] 0xFF 3 40 (fun i => 42 + 2 * i) (fun _ => 46)) = 1 ∧
    (regRunState [rChar, wChar] 0xFF 3 40 (fun i => 42 + 2 * i)
      (fun _ => 46)).s_registered_chars = 2 := by
  have h := c2_registration_state_machine [rChar, wChar] 0xFF 3 40
    (fun i => 42 + 2 * i) (fun _ => 46) (by decide) (by decide) (by decide)
  refine ⟨by decide, ?_, ?_, ?_⟩
  · simpa using h.1
  · have h2 := h.2.1
    simpa [rChar, wChar, hasDescription] using h2
  · simpa using h.2.2.2.2.1

/- ===== C9 ===== -/

/-- C9: under sequential delivery of the stack's completion events the
registration progress index never decreases at any event, every handle-table
write is at an index below s_char_count (slots at or beyond it are never
touched), and along the canonical registration run from a fresh init every
intermediate state keeps s_char_count equal to the configured length (at most
16), the progress index at most that length, and the pending-descriptor index
strictly below it. -/
theorem c9_registration_invariants (chars : List ble_characteristic_t)
    (uuid gif svcH : Nat) (vh dh : Nat → Nat)
    (h1 : 1 ≤ chars.length) (h16 : chars.length ≤ MAX_CHARACTERISTICS) :
    (∀ (s : GattsState) (g : Nat) (e : GattsEvent),
      s.s_registered_chars ≤ (gatts_event_handler s g e).st.s_registered_chars) ∧
    (∀ (s : GattsState) (g : Nat) (e : GattsEvent) (j : Nat), s.s_char_count ≤ j →
      (gatts_event_handler s g e).st.s_char_handles j = s.s_char_handles j) ∧
    (∀ st ∈ regRunStates chars uuid gif svcH vh dh,
      st.s_char_count = chars.length ∧
      chars.length ≤ MAX_CHARACTERISTICS ∧
      st.s_registered_chars ≤ chars.length ∧
      st.s_pending_descr_char < chars.length) := by
  refine ⟨handler_registered_mono, handler_table_frame, ?_⟩
  intro st hst
  have hne : chars.length ≠ 0 := by omega
  have hgt : ¬ chars.length > MAX_CHARACTERISTICS := by omega
  have hcount : st.s_char_count = chars.length := by
    have h := runStates_count_const gif (regTrace chars svcH vh dh)
      (postInitState chars uuid) st hst
    rw [h]
    simp [postInitState, ble_gatts_init, hne, hgt]
  obtain ⟨-, -, -, -, -, -, hH⟩ := reg_run_summary chars uuid gif svcH vh dh h1 h16
  obtain ⟨ha, hb⟩ := hH st hst
  exact ⟨hcount, h16, ha, hb⟩

/-- Witness for C9: monotonicity and table-frame instances at the demo state,
plus the bound at the head state of a concrete one-characteristic run. -/
theorem c9_registration_invariants_witness :
    demoState.s_registered_chars ≤
      (gatts_event_handler demoState 3 (.mtuEvt 23)).st.s_registered_chars ∧
    (gatts_event_handler demoState 3 (.addCharEvt .ESP_GATT_OK 77)).st.s_char_handles 5 =
      demoState.s_char_handles 5 ∧
    (postInitState [wChar] 0xFF).s_registered_chars ≤ [wChar].length := by
  have h := c9_registration_invariants [wChar] 0xFF 3 40 (fun _ => 42) (fun _ => 50)
    (by decide) (by decide)
  refine ⟨h.1 demoState 3 (.mtuEvt 23), h.2.1 demoState 3 (.addCharEvt .ESP_GATT_OK 77) 5
    (by decide), ?_⟩
  have hm : postInitState [wChar] 0xFF ∈
      regRunStates [wChar] 0xFF 3 40 (fun _ => 42) (fun _ => 50) := by
    simp [regRunStates, regTrace]
  simpa using (h.2.2 (postInitState [wChar] 0xFF) hm).2.2.1

/- ===== C10 ===== -/

/-- A successful descriptor-handle lookup only ever returns an entry whose
stored descriptor handle is nonzero and equal to the searched handle
(src/ble-gatts.c:595 requires descr_handle != 0 and equality). -/
lemma find_descr_facts (s : GattsState) (h i : Nat)
    (hf : find_char_by_descr_handle s h = some i) :
    (s.s_char_handles i).descr_handle ≠ 0 ∧ (s.s_char_handles i).descr_handle = h := by
  have hp := List.find?_some hf
  simpa using hp

/-- C10: unset descriptor handles are the sentinel 0 and the lookup excludes
it: a matched entry always has a nonzero stored descriptor handle equal to
the searched one, a lookup for handle 0 never matches in any state (so such
an event is never dispatched as a descriptor read), and after the canonical
registration run a characteristic without a description keeps descriptor
handle 0 and is never returned by the lookup for any handle. -/
theorem c10_descriptor_sentinel (chars : List ble_characteristic_t)
    (uuid gif svcH : Nat) (vh dh : Nat → Nat)
    (h1 : 1 ≤ chars.length) (h16 : chars.length ≤ MAX_CHARACTERISTICS) :
    (∀ (s : GattsState) (h i : Nat), find_char_by_descr_handle s h = some i →
      (s.s_char_handles i).descr_handle ≠ 0 ∧ (s.s_char_handles i).descr_handle = h) ∧
    (∀ s : GattsState, find_char_by_descr_handle s 0 = none) ∧
    (∀ j, j < chars.length →
      hasDescription (chars.getD j dummyChar) = false →
      ((regRunState chars uuid gif svcH vh dh).s_char_handles j).descr_handle = 0 ∧
      ∀ h, find_char_by_descr_handle (regRunState chars uuid gif svcH vh dh) h ≠
        some j) := by
  refine ⟨find_descr_facts, ?_, ?_⟩
  · intro s
    rw [find_char_by_descr_handle]
    apply List.find?_eq_none.mpr
    intro x hx
    simp
  · intro j hj hnd
    obtain ⟨-, -, hC, -, -, -, -⟩ :=
      reg_run_summary chars uuid gif svcH vh dh h1 h16
    have hd0 : ((regRunState chars uuid gif svcH vh dh).s_char_handles j).descr_handle
        = 0 := by
      have hnd2 : hasDescription (chars[j]?.getD dummyChar) = false := by
        simpa [List.getD, List.get?_eq_getElem?] using hnd
      rw [(hC j hj).2.2]
      simp [hnd, hnd2]
    refine ⟨hd0, ?_⟩
    intro h hf
    have := (find_descr_facts _ h j hf).1
    exact this hd0

/-- Witness for C10: handle 0 never matches in the demo state, and after the
one-characteristic (description-less) run the descriptor slot stays 0. -/
theorem c10_descriptor_sentinel_witness :
    find_char_by_descr_handle demoState 0 = none ∧
    ((regRunState [wChar] 0xFF 3 40 (fun _ => 42)
      (fun _ => 50)).s_char_handles 0).descr_handle = 0 := by
  have h := c10_descriptor_sentinel [wChar] 0xFF 3 40 (fun _ => 42) (fun _ => 50)
    (by decide) (by decide)
  exact ⟨h.2.1 demoState, (h.2.2 0 (by decide) (by decide)).1⟩
